import Mathlib

/-!
Shallow embedding of the quoting and execution core of a Solana DEX
arbitrage bot.  Decimal.js values are modelled as exact rationals (ℚ),
JavaScript bigint arithmetic as ℕ with floor division, and the
asynchronous execution pipeline as pure functions over explicit
environments recording the outcome of each network interaction.
-/

/-- Venue pool types, mirroring `PoolInfo.poolType` in pools/types. -/
inductive PoolType
  | ammV4
  | clmm
  | cpmm
  | whirlpool
  | bondingCurve
deriving DecidableEq, Repr

/-- `PoolInfo` record (pools/types): mints and addresses are abstracted to
naturals, Decimal reserves and fees to rationals. -/
structure PoolInfo where
  address : ℕ
  tokenA : ℕ
  tokenB : ℕ
  reserveA : ℚ
  reserveB : ℚ
  fee : ℚ
  poolType : PoolType
  orcaApiPrice : Option ℚ := none
  sqrtPriceX64 : Option ℚ := none
  decimalsA : Option ℕ := none
  decimalsB : Option ℕ := none
deriving DecidableEq, Repr

/-- `PriceQuote` record (pools/types). -/
structure PriceQuote where
  pool : PoolInfo
  inputMint : ℕ
  outputMint : ℕ
  inputAmount : ℚ
  outputAmount : ℚ
  priceImpact : ℚ
  effectivePrice : ℚ
deriving DecidableEq, Repr

/-- JavaScript `pool.decimalsA || 9`: both `undefined` and `0` are falsy. -/
def jsDecimalsOr9 : Option ℕ → ℕ
  | none => 9
  | some d => if d = 0 then 9 else d

namespace PoolManager

/-- `PoolManager.getAmountOut`: constant-product output with the fee taken
off the input and a single floor on the final division. -/
def getAmountOut (amountIn reserveIn reserveOut feeBps : ℚ) : ℤ :=
  let feeMultiplier := (10000 - feeBps) / 10000
  let effectiveIn := amountIn * feeMultiplier
  ⌊effectiveIn * reserveOut / (reserveIn + effectiveIn)⌋

/-- Orca API-price branch of `PoolManager.getQuote` (lines 38-51). -/
def orcaBranchOut (decA decB : ℕ) (feeBps apiPrice amountIn : ℚ)
    (isForward : Bool) : ℤ :=
  let rawPrice := apiPrice * 10 ^ decB / 10 ^ decA
  let feeMultiplier := (10000 - feeBps) / 10000
  let effectiveIn := amountIn * feeMultiplier
  if isForward then ⌊effectiveIn * rawPrice⌋ else ⌊effectiveIn / rawPrice⌋

/-- sqrt-price branch of `PoolManager.getQuote` (lines 52-63). -/
def sqrtBranchOut (feeBps sqrtPriceX64 amountIn : ℚ) (isForward : Bool) : ℤ :=
  let sqrtPrice := sqrtPriceX64 / 2 ^ 64
  let price := sqrtPrice * sqrtPrice
  let feeMultiplier := (10000 - feeBps) / 10000
  let effectiveIn := amountIn * feeMultiplier
  if isForward then ⌊effectiveIn * price⌋ else ⌊effectiveIn / price⌋

/-- The `else` part of `getQuote` after the Orca-API-price guard:
concentrated-liquidity pools with a sqrt price use `sqrtBranchOut`,
everything else falls through to `getAmountOut`. -/
def concentratedOrCpOut (pool : PoolInfo) (isForward : Bool)
    (reserveIn reserveOut amountIn : ℚ) : ℤ :=
  if pool.poolType = PoolType.whirlpool ∨ pool.poolType = PoolType.clmm then
    match pool.sqrtPriceX64 with
    | some s => sqrtBranchOut pool.fee s amountIn isForward
    | none => getAmountOut amountIn reserveIn reserveOut pool.fee
  else getAmountOut amountIn reserveIn reserveOut pool.fee

/-- Output-amount dispatch of `PoolManager.getQuote` (lines 35-66). -/
def quoteOutput (pool : PoolInfo) (isForward : Bool)
    (reserveIn reserveOut amountIn : ℚ) : ℤ :=
  match pool.orcaApiPrice with
  | some p =>
    if 0 < p then
      orcaBranchOut (jsDecimalsOr9 pool.decimalsA) (jsDecimalsOr9 pool.decimalsB)
        pool.fee p amountIn isForward
    else concentratedOrCpOut pool isForward reserveIn reserveOut amountIn
  | none => concentratedOrCpOut pool isForward reserveIn reserveOut amountIn

/-- `PoolManager.getQuote` (lines 29-73). -/
def getQuote (pool : PoolInfo) (inputMint : ℕ) (inputAmount : ℚ) : PriceQuote :=
  let isForward : Bool := decide (pool.tokenA = inputMint)
  let reserveIn := if isForward then pool.reserveA else pool.reserveB
  let reserveOut := if isForward then pool.reserveB else pool.reserveA
  let outputMint := if isForward then pool.tokenB else pool.tokenA
  let outputAmount : ℚ := (quoteOutput pool isForward reserveIn reserveOut inputAmount : ℤ)
  let actualRate := if inputAmount = 0 then 0 else outputAmount / inputAmount
  let idealRate := if reserveIn = 0 then 0 else reserveOut / reserveIn
  let priceImpact := if idealRate = 0 then 0 else 1 - actualRate / idealRate
  { pool := pool, inputMint := inputMint, outputMint := outputMint,
    inputAmount := inputAmount, outputAmount := outputAmount,
    priceImpact := priceImpact, effectivePrice := actualRate }

end PoolManager

namespace RaydiumFetcher

/-- `RaydiumFetcher.getAmountOut` (static): same constant-product math with
named numerator and denominator. -/
def getAmountOut (amountIn reserveIn reserveOut feeBps : ℚ) : ℤ :=
  let feeMultiplier := (10000 - feeBps) / 10000
  let effectiveIn := amountIn * feeMultiplier
  let numerator := effectiveIn * reserveOut
  let denominator := reserveIn + effectiveIn
  ⌊numerator / denominator⌋

end RaydiumFetcher

/-- pump.fun bonding-curve account state (pools/pumpfun). -/
structure BondingCurveData where
  virtualTokenReserves : ℕ
  virtualSolReserves : ℕ
  realTokenReserves : ℕ
  realSolReserves : ℕ
  tokenTotalSupply : ℕ
  complete : Bool
deriving DecidableEq, Repr

/-- `getBuyQuote` (pools/pumpfun): SOL in → tokens out; the 1% fee is taken
off the SOL input before the virtual-reserve constant product.  bigint
division on non-negative values is ℕ floor division. -/
def getBuyQuote (curve : BondingCurveData) (solIn : ℕ) : ℕ :=
  let solAfterFee := solIn * 99 / 100
  let newSolReserves := curve.virtualSolReserves + solAfterFee
  let k := curve.virtualTokenReserves * curve.virtualSolReserves
  let newTokenReserves := k / newSolReserves
  curve.virtualTokenReserves - newTokenReserves

/-- `getSellQuote` (pools/pumpfun): tokens in → SOL out; the raw token input
enters the constant product, and the 1% fee is taken off the SOL output. -/
def getSellQuote (curve : BondingCurveData) (tokensIn : ℕ) : ℕ :=
  let newTokenReserves := curve.virtualTokenReserves + tokensIn
  let k := curve.virtualTokenReserves * curve.virtualSolReserves
  let newSolReserves := k / newTokenReserves
  let solOut := curve.virtualSolReserves - newSolReserves
  solOut * 99 / 100

/-- The spec's wording of the bonding-curve quote, for comparison with the
source: the fee is applied to the input amount before the formula and
`out = virtualOut − (virtualIn·virtualOut)/(virtualIn+effIn)`. -/
def specBondingCurveOut (virtualIn virtualOut amountIn : ℕ) : ℕ :=
  let effIn := amountIn * 99 / 100
  virtualOut - virtualIn * virtualOut / (virtualIn + effIn)

/-- Strategy tags of `ArbOpportunity.type` (pools/types). -/
inductive OppType
  | spatial
  | temporal
  | triangular
deriving DecidableEq, Repr

/-- `ArbOpportunity` record (pools/types). -/
structure ArbOpportunity where
  type : OppType
  buyPool : PoolInfo
  sellPool : PoolInfo
  tokenMint : ℕ
  inputAmount : ℚ
  expectedProfit : ℚ
  profitBps : ℚ
  timestamp : ℕ
deriving DecidableEq, Repr

namespace Executor

/-- Mutable fields of the `Executor` class: execution counter, accumulated
profit, and the rolling dedup record `lastExecution`. -/
structure State where
  executionCount : ℕ
  totalProfit : ℚ
  lastExecution : Option ((ℕ × ℕ × OppType) × ℕ)
deriving DecidableEq, Repr

/-- Executor state at construction. -/
def initialState : State := ⟨0, 0, none⟩

/-- The dedup key `buyPool.address-sellPool.address-type`: base58 addresses
contain no dash, so the string key is injective in this triple. -/
def dedupKey (opp : ArbOpportunity) : ℕ × ℕ × OppType :=
  (opp.buyPool.address, opp.sellPool.address, opp.type)

/-- The dedup guard of `execute` (line 55): a previous execution with the
same key less than 30 000 ms ago suppresses this call. -/
def suppressed (st : State) (key : ℕ × ℕ × OppType) (now : ℕ) : Bool :=
  match st.lastExecution with
  | none => false
  | some (k, ts) => decide (k = key) && decide (now - ts < 30000)

/-- The transaction legs `executeArb` can attempt, in order. -/
inductive LegAction
  | leg1
  | leg2
  | fallback
deriving DecidableEq, Repr

/-- Environment for one `executeArb` run: outcomes of the buy leg, the
post-leg-1 and post-leg-2 token-balance reads, the sell leg, and the
fallback re-sell.  `none` models a leg returning null (failure). -/
structure ArbEnv where
  leg1Sig : Option ℕ
  balanceAfterLeg1 : ℕ
  leg2Sig : Option ℕ
  balanceAfterLeg2 : ℕ
  fallbackSig : Option ℕ
deriving DecidableEq, Repr

/-- `Executor.executeArb` control flow (lines 82-129), returning the list of
legs actually attempted and the boolean result.  The fallback is attempted
only when tokens remain and the buy pool differs from the sell pool, and
its outcome never changes the returned result. -/
def executeArb (opp : ArbOpportunity) (env : ArbEnv) : List LegAction × Bool :=
  match env.leg1Sig with
  | none => ([LegAction.leg1], false)
  | some _ =>
    if env.balanceAfterLeg1 = 0 then ([LegAction.leg1], false)
    else
      match env.leg2Sig with
      | some _ => ([LegAction.leg1, LegAction.leg2], true)
      | none =>
        if 0 < env.balanceAfterLeg2 ∧ opp.sellPool ≠ opp.buyPool then
          ([LegAction.leg1, LegAction.leg2, LegAction.fallback], false)
        else ([LegAction.leg1, LegAction.leg2], false)

/-- `Executor.execute` (lines 50-80): dedup guard, dry-run shortcut, then
`executeArb` inside try/catch.  The third argument of the result records
the legs attempted; `arbOutcome` is the settled promise of `executeArb`,
with `Except.error` standing for a thrown exception. -/
def execute (st : State) (dryRun : Bool) (opp : ArbOpportunity) (now : ℕ)
    (arbOutcome : Except Unit (List LegAction × Bool)) :
    State × Bool × List LegAction :=
  let key := dedupKey opp
  if suppressed st key now then (st, false, [])
  else
    let st1 : State := { st with lastExecution := some (key, now) }
    if dryRun then
      ({ st1 with executionCount := st1.executionCount + 1,
                  totalProfit := st1.totalProfit + opp.expectedProfit }, true, [])
    else
      match arbOutcome with
      | Except.ok (acts, ok) =>
        if ok then
          ({ st1 with executionCount := st1.executionCount + 1,
                      totalProfit := st1.totalProfit + opp.expectedProfit }, true, acts)
        else (st1, false, acts)
      | Except.error _ => (st1, false, [])

/-- Events of one venue swap attempt, in program order. -/
inductive TxEvent
  | built
  | simulated
  | signed
  | submitted
  | confirmed
deriving DecidableEq, Repr

/-- Environment for one venue swap: which on-chain accounts resolve, the
simulation verdict, the confirmation verdict, and the signature assigned
on submission. -/
structure SwapEnv where
  poolAccount : Bool
  marketAccount : Bool
  tickArraysPresent : Bool
  simError : Option ℕ
  confirmError : Option ℕ
  signature : ℕ
deriving DecidableEq, Repr

/-- `Executor.sendAndConfirm` (lines 717-727): submit the signed bytes, poll
confirmation at `confirmed` commitment, and treat a confirmation error as
a leg failure. -/
def sendAndConfirm (env : SwapEnv) : List TxEvent × Option ℕ :=
  match env.confirmError with
  | some _ => ([TxEvent.submitted], none)
  | none => ([TxEvent.submitted, TxEvent.confirmed], some env.signature)

/-- `Executor.swapViaRaydiumRaw` (lines 152-260): abort if the pool or the
Serum market account is missing, build, simulate, and only on a clean
simulation sign and hand off to `sendAndConfirm`. -/
def swapViaRaydiumRaw (env : SwapEnv) : List TxEvent × Option ℕ :=
  if !env.poolAccount then ([], none)
  else if !env.marketAccount then ([], none)
  else
    match env.simError with
    | some _ => ([TxEvent.built, TxEvent.simulated], none)
    | none =>
      let sc := sendAndConfirm env
      ([TxEvent.built, TxEvent.simulated, TxEvent.signed] ++ sc.1, sc.2)

/-- `Executor.swapViaOrca` (lines 364-488): abort if the whirlpool account
or any of the three tick arrays is missing, build, simulate, and only on a
clean simulation sign and hand off to `sendAndConfirm`. -/
def swapViaOrca (env : SwapEnv) : List TxEvent × Option ℕ :=
  if !env.poolAccount then ([], none)
  else if !env.tickArraysPresent then ([], none)
  else
    match env.simError with
    | some _ => ([TxEvent.built, TxEvent.simulated], none)
    | none =>
      let sc := sendAndConfirm env
      ([TxEvent.built, TxEvent.simulated, TxEvent.signed] ++ sc.1, sc.2)

end Executor

/-! ## Concrete sample data used by witnesses and counterexamples -/

/-- Concrete bonding curve separating fee-on-input from fee-on-output. -/
def sellCurveExample : BondingCurveData :=
  { virtualTokenReserves := 1000, virtualSolReserves := 1000,
    realTokenReserves := 500, realSolReserves := 500,
    tokenTotalSupply := 2000, complete := false }

/-- A plain constant-product pool (Raydium AMM-V4 shape). -/
def cpPool : PoolInfo :=
  { address := 1, tokenA := 10, tokenB := 20,
    reserveA := 1000000000, reserveB := 50000000000,
    fee := 25, poolType := PoolType.ammV4 }

/-- A constant-product pool whose reserves are both zero. -/
def zeroReservePool : PoolInfo :=
  { address := 2, tokenA := 10, tokenB := 20,
    reserveA := 0, reserveB := 0,
    fee := 25, poolType := PoolType.ammV4 }

/-- A second distinct pool, for two-venue opportunities. -/
def otherPool : PoolInfo :=
  { address := 3, tokenA := 10, tokenB := 20,
    reserveA := 2000000000, reserveB := 90000000000,
    fee := 30, poolType := PoolType.cpmm }

/-- A concrete spatial opportunity between `cpPool` and `otherPool`. -/
def sampleOpp : ArbOpportunity :=
  { type := OppType.spatial, buyPool := cpPool, sellPool := otherPool,
    tokenMint := 20, inputAmount := 500000000, expectedProfit := 2500000,
    profitBps := 50, timestamp := 0 }

/-- Arb environment: leg 1 lands, leg 2 fails, tokens remain, and the
fallback re-sell succeeds. -/
def envFallbackOk : Executor.ArbEnv :=
  { leg1Sig := some 11, balanceAfterLeg1 := 700,
    leg2Sig := none, balanceAfterLeg2 := 700, fallbackSig := some 22 }

/-- Arb environment in which leg 1 itself fails. -/
def envLeg1Fail : Executor.ArbEnv :=
  { leg1Sig := none, balanceAfterLeg1 := 0,
    leg2Sig := none, balanceAfterLeg2 := 0, fallbackSig := none }

/-- Executor state that has just executed `sampleOpp` at time 0. -/
def dupState : Executor.State :=
  { executionCount := 1, totalProfit := 2500000,
    lastExecution := some (Executor.dedupKey sampleOpp, 0) }

/-- Swap environment whose simulation fails. -/
def envSimFail : Executor.SwapEnv :=
  { poolAccount := true, marketAccount := true, tickArraysPresent := true,
    simError := some 7, confirmError := none, signature := 99 }

/-- Swap environment that simulates cleanly but fails confirmation. -/
def envConfFail : Executor.SwapEnv :=
  { poolAccount := true, marketAccount := true, tickArraysPresent := true,
    simError := none, confirmError := some 3, signature := 99 }

/-! ## Helper lemmas -/

/-- Flooring only on the final division of the constant-product formula is
the same as one integer division after clearing the 10000 denominator. -/
theorem floor_cp_form (a b c g : ℕ) (hb : 0 < b) :
    ⌊(↑a * ((g : ℚ) / 10000)) * ↑c / (↑b + ↑a * ((g : ℚ) / 10000))⌋
      = ((a * g * c) / (10000 * b + a * g) : ℕ) := by
  have hb' : (0 : ℚ) < (b : ℚ) := by exact_mod_cast hb
  have h1 : (↑a * ((g : ℚ) / 10000)) * ↑c / (↑b + ↑a * ((g : ℚ) / 10000))
      = ((a * g * c : ℕ) : ℚ) / ((10000 * b + a * g : ℕ) : ℚ) := by
    rw [div_eq_div_iff (by positivity) (by positivity)]
    push_cast
    ring
  rw [h1,
    show ((a * g * c : ℕ) : ℚ) = (((a * g * c : ℕ) : ℤ) : ℚ) by push_cast; ring,
    Rat.floor_intCast_div_natCast]
  exact (Int.ofNat_ediv _ _).symm

/-- Unfolding of `PoolManager.getAmountOut` to a floored rational. -/
theorem PoolManager.getAmountOut_def (amountIn reserveIn reserveOut feeBps : ℚ) :
    PoolManager.getAmountOut amountIn reserveIn reserveOut feeBps
      = ⌊amountIn * ((10000 - feeBps) / 10000) * reserveOut
          / (reserveIn + amountIn * ((10000 - feeBps) / 10000))⌋ := rfl

/-- The constant-product fraction is non-decreasing in the effective input. -/
theorem amm_frac_mono (c b x y : ℚ) (hc : 0 ≤ c) (hb : 0 < b)
    (hx : 0 ≤ x) (hxy : x ≤ y) : x * c / (b + x) ≤ y * c / (b + y) := by
  have hbx : 0 < b + x := by linarith
  have hby : 0 < b + y := by linarith
  rw [div_le_div_iff₀ hbx hby]
  nlinarith [mul_nonneg (mul_nonneg (sub_nonneg.mpr hxy) hc) hb.le]

/-- Output-amount projection of `getQuote`. -/
theorem PoolManager.getQuote_outputAmount (pool : PoolInfo) (inputMint : ℕ) (amt : ℚ) :
    (PoolManager.getQuote pool inputMint amt).outputAmount
      = ((PoolManager.quoteOutput pool (decide (pool.tokenA = inputMint))
          (if decide (pool.tokenA = inputMint) = true then pool.reserveA else pool.reserveB)
          (if decide (pool.tokenA = inputMint) = true then pool.reserveB else pool.reserveA)
          amt : ℤ) : ℚ) := rfl

/-- Output-mint projection of `getQuote`. -/
theorem PoolManager.getQuote_outputMint (pool : PoolInfo) (inputMint : ℕ) (amt : ℚ) :
    (PoolManager.getQuote pool inputMint amt).outputMint
      = if decide (pool.tokenA = inputMint) = true then pool.tokenB else pool.tokenA := rfl

/-- Effective-price projection of `getQuote`. -/
theorem PoolManager.getQuote_effectivePrice (pool : PoolInfo) (inputMint : ℕ) (amt : ℚ) :
    (PoolManager.getQuote pool inputMint amt).effectivePrice
      = if amt = 0 then 0
        else ((PoolManager.quoteOutput pool (decide (pool.tokenA = inputMint))
            (if decide (pool.tokenA = inputMint) = true then pool.reserveA else pool.reserveB)
            (if decide (pool.tokenA = inputMint) = true then pool.reserveB else pool.reserveA)
            amt : ℤ) : ℚ) / amt := rfl

/-- Round trip through a positive fixed price: multiply-and-floor forward,
then fee, divide and floor back, never beats the input, and loses strictly
whenever a positive fee meets a positive input. -/
theorem price_roundtrip (P f a : ℚ) (o1 : ℤ)
    (hP : 0 < P) (hf0 : 0 ≤ f) (hf1 : f ≤ 1) (ha : 0 ≤ a)
    (ho1 : (o1 : ℚ) ≤ a * f * P) :
    (((⌊(o1 : ℚ) * f / P⌋ : ℤ) : ℚ) ≤ a)
    ∧ (f < 1 → 0 < a → ((⌊(o1 : ℚ) * f / P⌋ : ℤ) : ℚ) < a) := by
  have hq2 : (o1 : ℚ) * f / P ≤ a * (f * f) := by
    rw [div_le_iff₀ hP]
    nlinarith [mul_le_mul_of_nonneg_right ho1 hf0]
  have hff : f * f ≤ 1 := by nlinarith
  have hfloor : ((⌊(o1 : ℚ) * f / P⌋ : ℤ) : ℚ) ≤ (o1 : ℚ) * f / P := Int.floor_le _
  constructor
  · nlinarith
  · intro hflt hapos
    have hff2 : f * f < 1 := by nlinarith
    nlinarith

/-- Round trip through a constant-product pool: the second-leg output never
beats the input, and loses strictly whenever a positive fee meets a
positive input. -/
theorem cp_roundtrip (A B f a : ℚ) (o1 : ℤ)
    (hA : 0 < A) (hB : 0 < B) (hf0 : 0 ≤ f) (hf1 : f ≤ 1) (ha : 0 ≤ a)
    (ho1 : (o1 : ℚ) ≤ a * f * B / (A + a * f)) (ho1nn : 0 ≤ o1) :
    (((⌊(o1 : ℚ) * f * A / (B + (o1 : ℚ) * f)⌋ : ℤ) : ℚ) ≤ a)
    ∧ (f < 1 → 0 < a → ((⌊(o1 : ℚ) * f * A / (B + (o1 : ℚ) * f)⌋ : ℤ) : ℚ) < a) := by
  have he1nn : 0 ≤ a * f := mul_nonneg ha hf0
  have hAe1 : 0 < A + a * f := by linarith
  have ho1nn' : (0 : ℚ) ≤ (o1 : ℚ) := by exact_mod_cast ho1nn
  have he2nn : 0 ≤ (o1 : ℚ) * f := mul_nonneg ho1nn' hf0
  have hBe2 : 0 < B + (o1 : ℚ) * f := by linarith
  have he2le : (o1 : ℚ) * f ≤ a * f * B / (A + a * f) := by
    calc (o1 : ℚ) * f ≤ (o1 : ℚ) * 1 := mul_le_mul_of_nonneg_left hf1 ho1nn'
      _ = (o1 : ℚ) := by ring
      _ ≤ a * f * B / (A + a * f) := ho1
  have hq1mul : a * f * B / (A + a * f) * (A + a * f) = a * f * B :=
    div_mul_cancel₀ _ hAe1.ne'
  have hkey : (o1 : ℚ) * f * (A + a * f) ≤ a * f * B := by
    have h := mul_le_mul_of_nonneg_right he2le hAe1.le
    rwa [hq1mul] at h
  have hstep : (o1 : ℚ) * f * A / (B + (o1 : ℚ) * f) ≤ a * f := by
    rw [div_le_iff₀ hBe2]
    nlinarith [mul_nonneg he2nn he1nn]
  have he1a : a * f ≤ a := by nlinarith
  have hfloor : ((⌊(o1 : ℚ) * f * A / (B + (o1 : ℚ) * f)⌋ : ℤ) : ℚ)
      ≤ (o1 : ℚ) * f * A / (B + (o1 : ℚ) * f) := Int.floor_le _
  constructor
  · linarith
  · intro hflt hapos
    have : a * f < a := by nlinarith
    linarith

/-! ## C1 -/

/-- C1: every constant-product quote floors only on the final division:
with `effIn = in·(10000−feeBps)/10000` kept exact, the output is
`floor(effIn·reserveOut/(reserveIn+effIn))`, which over the integers is
one integer division of `in·(10000−feeBps)·reserveOut` by
`10000·reserveIn + in·(10000−feeBps)`; the `RaydiumFetcher` copy computes
the same function, and the golden vector (reserveIn = 1 000 000 000,
reserveOut = 50 000 000 000, fee = 25 bps, input = 100 000 000) yields
exactly the formula value 4 535 121 618. -/
theorem c1_constant_product_floor :
    (∀ amountIn reserveIn reserveOut feeBps : ℕ,
        feeBps ≤ 10000 → 0 < reserveIn →
        PoolManager.getAmountOut amountIn reserveIn reserveOut feeBps
          = ((amountIn * (10000 - feeBps) * reserveOut)
              / (10000 * reserveIn + amountIn * (10000 - feeBps)) : ℕ))
    ∧ (∀ amountIn reserveIn reserveOut feeBps : ℚ,
        RaydiumFetcher.getAmountOut amountIn reserveIn reserveOut feeBps
          = PoolManager.getAmountOut amountIn reserveIn reserveOut feeBps)
    ∧ PoolManager.getAmountOut 100000000 1000000000 50000000000 25
        = ((100000000 * (10000 - 25) * 50000000000)
            / (10000 * 1000000000 + 100000000 * (10000 - 25)) : ℕ)
    ∧ PoolManager.getAmountOut 100000000 1000000000 50000000000 25 = 4535121618 := by
  have key : ∀ amountIn reserveIn reserveOut feeBps : ℕ,
      feeBps ≤ 10000 → 0 < reserveIn →
      PoolManager.getAmountOut amountIn reserveIn reserveOut feeBps
        = ((amountIn * (10000 - feeBps) * reserveOut)
            / (10000 * reserveIn + amountIn * (10000 - feeBps)) : ℕ) := by
    intro a b c fee hfee hb
    rw [PoolManager.getAmountOut_def]
    have hcast : ((10000 : ℚ) - (fee : ℚ)) = ((10000 - fee : ℕ) : ℚ) := by
      push_cast [Nat.cast_sub hfee]
      ring
    rw [hcast]
    exact floor_cp_form a b c (10000 - fee) hb
  have h3 : PoolManager.getAmountOut 100000000 1000000000 50000000000 25
      = ((100000000 * (10000 - 25) * 50000000000)
          / (10000 * 1000000000 + 100000000 * (10000 - 25)) : ℕ) := by
    exact_mod_cast key 100000000 1000000000 50000000000 25 (by decide) (by decide)
  refine ⟨key, fun _ _ _ _ => rfl, h3, ?_⟩
  rw [h3]
  norm_num

/-- Witness for C1 at a small concrete input. -/
theorem c1_constant_product_floor_witness :
    PoolManager.getAmountOut 1000 500 2000 30
      = ((1000 * (10000 - 30) * 2000) / (10000 * 500 + 1000 * (10000 - 30)) : ℕ) :=
  c1_constant_product_floor.1 1000 500 2000 30 (by decide) (by decide)

/-! ## C2 -/

/-- Counterexample to C2: quoting a pool whose reserves are both zero does
not produce a typed `InvalidPool` error — `getQuote` is total into
`PriceQuote` and returns an ordinary quote with output 0 and impact 0.
(No `InvalidPool` or `QuoteUnavailable` value exists anywhere in the
quoting path.) -/
theorem c2_counterexample :
    (PoolManager.getQuote zeroReservePool 10 1000000).outputAmount = 0
    ∧ (PoolManager.getQuote zeroReservePool 10 1000000).priceImpact = 0
    ∧ (PoolManager.getQuote zeroReservePool 10 1000000).effectivePrice = 0 := by
  norm_num [PoolManager.getQuote, PoolManager.quoteOutput,
    PoolManager.concentratedOrCpOut, PoolManager.getAmountOut, zeroReservePool]

/-- C2 (amended): the quote engine is a total synchronous function into
`PriceQuote` with no error channel; quoting a pool with zero reserves in the
constant-product path yields a quote with output amount 0 and price impact
0 rather than a typed `InvalidPool`/`QuoteUnavailable` result.  (The
hypotheses keep to inputs where the Decimal code divides by a non-zero
denominator.) -/
theorem c2_zero_reserve_quote :
    ∀ (pool : PoolInfo) (inputMint : ℕ) (amt : ℚ),
      pool.orcaApiPrice = none → pool.sqrtPriceX64 = none →
      pool.reserveA = 0 → pool.reserveB = 0 →
      amt ≠ 0 → pool.fee ≠ 10000 →
      (PoolManager.getQuote pool inputMint amt).outputAmount = 0
      ∧ (PoolManager.getQuote pool inputMint amt).priceImpact = 0 := by
  intro pool mint amt hOp hs hrA hrB hamt hfee
  have hzero : ∀ fwd : Bool,
      PoolManager.quoteOutput pool fwd
        (if fwd = true then pool.reserveA else pool.reserveB)
        (if fwd = true then pool.reserveB else pool.reserveA) amt = 0 := by
    intro fwd
    have hIn : (if fwd = true then pool.reserveA else pool.reserveB) = 0 := by
      cases fwd <;> simp [hrA, hrB]
    have hOut : (if fwd = true then pool.reserveB else pool.reserveA) = 0 := by
      cases fwd <;> simp [hrA, hrB]
    rw [hIn, hOut]
    simp only [PoolManager.quoteOutput, hOp, PoolManager.concentratedOrCpOut, hs]
    rcases h : decide (pool.poolType = PoolType.whirlpool ∨ pool.poolType = PoolType.clmm) with _ | _
    all_goals simp [PoolManager.getAmountOut]
  constructor
  · rw [PoolManager.getQuote_outputAmount, hzero]
    norm_num
  · have hIn : (if decide (pool.tokenA = mint) = true then pool.reserveA else pool.reserveB) = 0 := by
      rcases h : decide (pool.tokenA = mint) with _ | _ <;> simp [hrA, hrB]
    show (if (if (if decide (pool.tokenA = mint) = true then pool.reserveA else pool.reserveB) = 0
        then (0 : ℚ)
        else (if decide (pool.tokenA = mint) = true then pool.reserveB else pool.reserveA)
          / (if decide (pool.tokenA = mint) = true then pool.reserveA else pool.reserveB)) = 0
      then (0 : ℚ) else _) = 0
    rw [hIn]
    simp

/-- Witness for C2's amended statement on a concrete zero-reserve pool. -/
theorem c2_zero_reserve_quote_witness :
    (PoolManager.getQuote zeroReservePool 10 5).outputAmount = 0
    ∧ (PoolManager.getQuote zeroReservePool 10 5).priceImpact = 0 :=
  c2_zero_reserve_quote zeroReservePool 10 5 rfl rfl rfl rfl
    (by norm_num) (by norm_num [zeroReservePool])

/-! ## C3 -/

/-- C3: for reserves positive and 0 ≤ feeBps < 10000 the constant-product
output lies in [0, reserveOut) and is non-decreasing in the input amount. -/
theorem c3_output_bounds_mono :
    ∀ amountIn amountIn2 reserveIn reserveOut feeBps : ℕ,
      0 < reserveIn → 0 < reserveOut → feeBps < 10000 →
      0 ≤ PoolManager.getAmountOut amountIn reserveIn reserveOut feeBps
      ∧ PoolManager.getAmountOut amountIn reserveIn reserveOut feeBps < (reserveOut : ℤ)
      ∧ (amountIn ≤ amountIn2 →
          PoolManager.getAmountOut amountIn reserveIn reserveOut feeBps
            ≤ PoolManager.getAmountOut amountIn2 reserveIn reserveOut feeBps) := by
  intro a a2 b c fee hb hc hfee
  have hb' : (0 : ℚ) < (b : ℚ) := by exact_mod_cast hb
  have hc' : (0 : ℚ) < (c : ℚ) := by exact_mod_cast hc
  have hfee' : (fee : ℚ) < 10000 := by exact_mod_cast hfee
  have hf0 : (0 : ℚ) < (10000 - (fee : ℚ)) / 10000 :=
    div_pos (by linarith) (by norm_num)
  have ha0 : (0 : ℚ) ≤ (a : ℚ) := by positivity
  have he0 : (0 : ℚ) ≤ (a : ℚ) * ((10000 - (fee : ℚ)) / 10000) :=
    mul_nonneg ha0 hf0.le
  have hden : (0 : ℚ) < (b : ℚ) + (a : ℚ) * ((10000 - (fee : ℚ)) / 10000) := by
    linarith
  refine ⟨?_, ?_, ?_⟩
  · rw [PoolManager.getAmountOut_def]
    exact Int.floor_nonneg.mpr (by positivity)
  · rw [PoolManager.getAmountOut_def]
    rw [Int.floor_lt]
    rw [div_lt_iff₀ hden]
    push_cast
    nlinarith [mul_nonneg he0 hc'.le]
  · intro haa
    have haa' : (a : ℚ) ≤ (a2 : ℚ) := by exact_mod_cast haa
    rw [PoolManager.getAmountOut_def, PoolManager.getAmountOut_def]
    apply Int.floor_le_floor
    exact amm_frac_mono _ _ _ _ hc'.le hb' he0
      (mul_le_mul_of_nonneg_right haa' hf0.le)

/-- Witness for C3 at concrete inputs 5 ≤ 7 against reserves 100/100, 30 bps. -/
theorem c3_output_bounds_mono_witness :
    0 ≤ PoolManager.getAmountOut 5 100 100 30
    ∧ PoolManager.getAmountOut 5 100 100 30 < (100 : ℤ)
    ∧ PoolManager.getAmountOut 5 100 100 30 ≤ PoolManager.getAmountOut 7 100 100 30 := by
  obtain ⟨h1, h2, h3⟩ := c3_output_bounds_mono 5 7 100 100 30
    (by decide) (by decide) (by decide)
  exact ⟨h1, h2, h3 (by decide)⟩

/-! ## C6 -/

/-- C6: price impact is `1 − realizedRate/idealRate` with the ideal rate the
raw reserve ratio `reserveOut/reserveIn` whenever that ratio is non-zero,
and 0 when the ideal rate is undefined (`reserveIn = 0`). -/
theorem c6_price_impact :
    ∀ (pool : PoolInfo) (inputMint : ℕ) (amt : ℚ),
      ((if pool.tokenA = inputMint then pool.reserveA else pool.reserveB) = 0 →
        (PoolManager.getQuote pool inputMint amt).priceImpact = 0)
      ∧ ((if pool.tokenA = inputMint then pool.reserveB else pool.reserveA)
            / (if pool.tokenA = inputMint then pool.reserveA else pool.reserveB) ≠ 0 →
          (PoolManager.getQuote pool inputMint amt).priceImpact
            = 1 - (PoolManager.getQuote pool inputMint amt).effectivePrice
                / ((if pool.tokenA = inputMint then pool.reserveB else pool.reserveA)
                    / (if pool.tokenA = inputMint then pool.reserveA else pool.reserveB))) := by
  intro pool mint amt
  by_cases hfwd : pool.tokenA = mint
  · have hdec : decide (pool.tokenA = mint) = true := by simp [hfwd]
    constructor
    · intro h0
      rw [if_pos hfwd] at h0
      show (if (if (if decide (pool.tokenA = mint) = true
            then pool.reserveA else pool.reserveB) = 0
          then (0 : ℚ)
          else (if decide (pool.tokenA = mint) = true then pool.reserveB else pool.reserveA)
            / (if decide (pool.tokenA = mint) = true then pool.reserveA else pool.reserveB)) = 0
        then (0 : ℚ) else _) = 0
      rw [hdec]
      simp [h0]
    · intro hne
      rw [if_pos hfwd, if_pos hfwd] at hne
      have hrA : ¬ pool.reserveA = 0 := by
        intro h
        exact hne (by rw [h, div_zero])
      show (if (if (if decide (pool.tokenA = mint) = true
            then pool.reserveA else pool.reserveB) = 0
          then (0 : ℚ)
          else (if decide (pool.tokenA = mint) = true then pool.reserveB else pool.reserveA)
            / (if decide (pool.tokenA = mint) = true then pool.reserveA else pool.reserveB)) = 0
        then (0 : ℚ)
        else 1 - (if amt = 0 then (0 : ℚ)
            else ((PoolManager.quoteOutput pool (decide (pool.tokenA = mint))
                (if decide (pool.tokenA = mint) = true then pool.reserveA else pool.reserveB)
                (if decide (pool.tokenA = mint) = true then pool.reserveB else pool.reserveA)
                amt : ℤ) : ℚ) / amt)
          / (if (if decide (pool.tokenA = mint) = true
              then pool.reserveA else pool.reserveB) = 0
            then (0 : ℚ)
            else (if decide (pool.tokenA = mint) = true then pool.reserveB else pool.reserveA)
              / (if decide (pool.tokenA = mint) = true then pool.reserveA else pool.reserveB)))
        = 1 - (PoolManager.getQuote pool mint amt).effectivePrice
            / ((if pool.tokenA = mint then pool.reserveB else pool.reserveA)
                / (if pool.tokenA = mint then pool.reserveA else pool.reserveB))
      rw [hdec]
      simp only [if_true, if_pos hfwd]
      rw [if_neg hrA, if_neg hne, PoolManager.getQuote_effectivePrice, hdec]
      simp
  · have hdec : decide (pool.tokenA = mint) = false := by simp [hfwd]
    constructor
    · intro h0
      rw [if_neg hfwd] at h0
      show (if (if (if decide (pool.tokenA = mint) = true
            then pool.reserveA else pool.reserveB) = 0
          then (0 : ℚ)
          else (if decide (pool.tokenA = mint) = true then pool.reserveB else pool.reserveA)
            / (if decide (pool.tokenA = mint) = true then pool.reserveA else pool.reserveB)) = 0
        then (0 : ℚ) else _) = 0
      rw [hdec]
      simp [h0]
    · intro hne
      rw [if_neg hfwd, if_neg hfwd] at hne
      have hrB : ¬ pool.reserveB = 0 := by
        intro h
        exact hne (by rw [h, div_zero])
      show (if (if (if decide (pool.tokenA = mint) = true
            then pool.reserveA else pool.reserveB) = 0
          then (0 : ℚ)
          else (if decide (pool.tokenA = mint) = true then pool.reserveB else pool.reserveA)
            / (if decide (pool.tokenA = mint) = true then pool.reserveA else pool.reserveB)) = 0
        then (0 : ℚ)
        else 1 - (if amt = 0 then (0 : ℚ)
            else ((PoolManager.quoteOutput pool (decide (pool.tokenA = mint))
                (if decide (pool.tokenA = mint) = true then pool.reserveA else pool.reserveB)
                (if decide (pool.tokenA = mint) = true then pool.reserveB else pool.reserveA)
                amt : ℤ) : ℚ) / amt)
          / (if (if decide (pool.tokenA = mint) = true
              then pool.reserveA else pool.reserveB) = 0
            then (0 : ℚ)
            else (if decide (pool.tokenA = mint) = true then pool.reserveB else pool.reserveA)
              / (if decide (pool.tokenA = mint) = true then pool.reserveA else pool.reserveB)))
        = 1 - (PoolManager.getQuote pool mint amt).effectivePrice
            / ((if pool.tokenA = mint then pool.reserveB else pool.reserveA)
                / (if pool.tokenA = mint then pool.reserveA else pool.reserveB))
      rw [hdec]
      simp only [Bool.false_eq_true, if_false, if_neg hfwd]
      rw [if_neg hrB, if_neg hne, PoolManager.getQuote_effectivePrice, hdec]
      simp

/-- Witness for C6 on `cpPool`: the ideal rate is 50, so the impact equals
`1 − effectivePrice/50`. -/
theorem c6_price_impact_witness :
    (PoolManager.getQuote cpPool 10 100).priceImpact
      = 1 - (PoolManager.getQuote cpPool 10 100).effectivePrice
          / ((if cpPool.tokenA = 10 then cpPool.reserveB else cpPool.reserveA)
              / (if cpPool.tokenA = 10 then cpPool.reserveA else cpPool.reserveB)) :=
  (c6_price_impact cpPool 10 100).2 (by norm_num [cpPool])

/-! ## C4 -/

/-- C4 (amended): on one pool with positive reserves, quoting A→B and then
quoting the produced amount B→A never returns more than the input, and
returns strictly less whenever the fee is positive and the input amount is
positive.  (At input 0 the round trip returns exactly 0, so the strict
inequality needs a positive input.) -/
theorem c4_roundtrip_no_gain :
    ∀ (pool : PoolInfo) (amountIn : ℕ),
      pool.tokenA ≠ pool.tokenB →
      0 < pool.reserveA → 0 < pool.reserveB →
      0 ≤ pool.fee → pool.fee ≤ 10000 →
      (∀ s, pool.sqrtPriceX64 = some s → 0 < s) →
      ((PoolManager.getQuote pool
          (PoolManager.getQuote pool pool.tokenA (amountIn : ℚ)).outputMint
          (PoolManager.getQuote pool pool.tokenA (amountIn : ℚ)).outputAmount).outputAmount
        ≤ (amountIn : ℚ))
      ∧ (0 < pool.fee → 0 < amountIn →
          (PoolManager.getQuote pool
            (PoolManager.getQuote pool pool.tokenA (amountIn : ℚ)).outputMint
            (PoolManager.getQuote pool pool.tokenA (amountIn : ℚ)).outputAmount).outputAmount
          < (amountIn : ℚ)) := by
  intro pool a hAB hA hB hfee0 hfee1 hsqrt
  have hfwd1 : decide (pool.tokenA = pool.tokenA) = true := by simp
  have hfwd2 : decide (pool.tokenA = pool.tokenB) = false := by
    simp [hAB]
  have hmint : (PoolManager.getQuote pool pool.tokenA (a : ℚ)).outputMint = pool.tokenB := by
    rw [PoolManager.getQuote_outputMint, hfwd1]
    simp
  set f : ℚ := (10000 - pool.fee) / 10000 with hfdef
  have hf0 : 0 ≤ f := div_nonneg (by linarith) (by norm_num)
  have hf1 : f ≤ 1 := by
    rw [hfdef, div_le_one (by norm_num)]
    linarith
  have hflt : 0 < pool.fee → f < 1 := fun hpos => by
    rw [hfdef, div_lt_one (by norm_num)]
    linarith
  have ha0 : (0 : ℚ) ≤ (a : ℚ) := by positivity
  rw [hmint, PoolManager.getQuote_outputAmount pool pool.tokenA (a : ℚ),
    PoolManager.getQuote_outputAmount pool pool.tokenB, hfwd1, hfwd2]
  simp only [if_true, Bool.false_eq_true, if_false]
  cases hOp : pool.orcaApiPrice with
  | some p =>
    by_cases hp : (0 : ℚ) < p
    · -- Orca API-price branch, both directions
      simp only [PoolManager.quoteOutput, hOp, hp, if_true]
      simp only [PoolManager.orcaBranchOut]
      set P : ℚ := p * 10 ^ jsDecimalsOr9 pool.decimalsB / 10 ^ jsDecimalsOr9 pool.decimalsA
        with hPdef
      have hP : 0 < P := by rw [hPdef]; positivity
      have hkey := price_roundtrip P f (a : ℚ) ⌊(a : ℚ) * f * P⌋ hP hf0 hf1 ha0
        (Int.floor_le _)
      exact ⟨hkey.1, fun hfpos hapos =>
        hkey.2 (hflt hfpos) (by exact_mod_cast hapos)⟩
    · -- price present but non-positive: falls through to the pool-kind branch
      simp only [PoolManager.quoteOutput, hOp, hp, if_false]
      cases hty : decide (pool.poolType = PoolType.whirlpool ∨ pool.poolType = PoolType.clmm) with
      | true =>
        cases hs : pool.sqrtPriceX64 with
        | some s =>
          have hspos := hsqrt s hs
          simp only [PoolManager.concentratedOrCpOut, of_decide_eq_true hty, if_true, hs]
          simp only [PoolManager.sqrtBranchOut]
          set P : ℚ := s / 2 ^ 64 * (s / 2 ^ 64) with hPdef
          have hP : 0 < P := by rw [hPdef]; positivity
          have hkey := price_roundtrip P f (a : ℚ) ⌊(a : ℚ) * f * P⌋ hP hf0 hf1 ha0
            (Int.floor_le _)
          exact ⟨hkey.1, fun hfpos hapos =>
            hkey.2 (hflt hfpos) (by exact_mod_cast hapos)⟩
        | none =>
          simp only [PoolManager.concentratedOrCpOut, of_decide_eq_true hty, if_true, hs]
          have ho1nn : 0 ≤ PoolManager.getAmountOut (a : ℚ) pool.reserveA pool.reserveB pool.fee := by
            rw [PoolManager.getAmountOut_def]
            refine Int.floor_nonneg.mpr ?_
            have : 0 ≤ (a : ℚ) * f := mul_nonneg ha0 hf0
            positivity
          have ho1 : ((PoolManager.getAmountOut (a : ℚ) pool.reserveA pool.reserveB pool.fee : ℤ) : ℚ)
              ≤ (a : ℚ) * f * pool.reserveB / (pool.reserveA + (a : ℚ) * f) := by
            rw [PoolManager.getAmountOut_def]
            exact Int.floor_le _
          have hkey := cp_roundtrip pool.reserveA pool.reserveB f (a : ℚ)
            (PoolManager.getAmountOut (a : ℚ) pool.reserveA pool.reserveB pool.fee)
            hA hB hf0 hf1 ha0 ho1 ho1nn
          rw [PoolManager.getAmountOut_def
            ((PoolManager.getAmountOut (a : ℚ) pool.reserveA pool.reserveB pool.fee : ℤ) : ℚ)]
          exact ⟨hkey.1, fun hfpos hapos =>
            hkey.2 (hflt hfpos) (by exact_mod_cast hapos)⟩
      | false =>
        simp only [PoolManager.concentratedOrCpOut, of_decide_eq_false hty, if_false]
        have ho1nn : 0 ≤ PoolManager.getAmountOut (a : ℚ) pool.reserveA pool.reserveB pool.fee := by
          rw [PoolManager.getAmountOut_def]
          refine Int.floor_nonneg.mpr ?_
          have : 0 ≤ (a : ℚ) * f := mul_nonneg ha0 hf0
          positivity
        have ho1 : ((PoolManager.getAmountOut (a : ℚ) pool.reserveA pool.reserveB pool.fee : ℤ) : ℚ)
            ≤ (a : ℚ) * f * pool.reserveB / (pool.reserveA + (a : ℚ) * f) := by
          rw [PoolManager.getAmountOut_def]
          exact Int.floor_le _
        have hkey := cp_roundtrip pool.reserveA pool.reserveB f (a : ℚ)
          (PoolManager.getAmountOut (a : ℚ) pool.reserveA pool.reserveB pool.fee)
          hA hB hf0 hf1 ha0 ho1 ho1nn
        rw [PoolManager.getAmountOut_def
          ((PoolManager.getAmountOut (a : ℚ) pool.reserveA pool.reserveB pool.fee : ℤ) : ℚ)]
        exact ⟨hkey.1, fun hfpos hapos =>
          hkey.2 (hflt hfpos) (by exact_mod_cast hapos)⟩
  | none =>
    simp only [PoolManager.quoteOutput, hOp]
    cases hty : decide (pool.poolType = PoolType.whirlpool ∨ pool.poolType = PoolType.clmm) with
    | true =>
      cases hs : pool.sqrtPriceX64 with
      | some s =>
        have hspos := hsqrt s hs
        simp only [PoolManager.concentratedOrCpOut, of_decide_eq_true hty, if_true, hs]
        simp only [PoolManager.sqrtBranchOut]
        set P : ℚ := s / 2 ^ 64 * (s / 2 ^ 64) with hPdef
        have hP : 0 < P := by rw [hPdef]; positivity
        have hkey := price_roundtrip P f (a : ℚ) ⌊(a : ℚ) * f * P⌋ hP hf0 hf1 ha0
          (Int.floor_le _)
        exact ⟨hkey.1, fun hfpos hapos =>
          hkey.2 (hflt hfpos) (by exact_mod_cast hapos)⟩
      | none =>
        simp only [PoolManager.concentratedOrCpOut, of_decide_eq_true hty, if_true, hs]
        have ho1nn : 0 ≤ PoolManager.getAmountOut (a : ℚ) pool.reserveA pool.reserveB pool.fee := by
          rw [PoolManager.getAmountOut_def]
          refine Int.floor_nonneg.mpr ?_
          have : 0 ≤ (a : ℚ) * f := mul_nonneg ha0 hf0
          positivity
        have ho1 : ((PoolManager.getAmountOut (a : ℚ) pool.reserveA pool.reserveB pool.fee : ℤ) : ℚ)
            ≤ (a : ℚ) * f * pool.reserveB / (pool.reserveA + (a : ℚ) * f) := by
          rw [PoolManager.getAmountOut_def]
          exact Int.floor_le _
        have hkey := cp_roundtrip pool.reserveA pool.reserveB f (a : ℚ)
          (PoolManager.getAmountOut (a : ℚ) pool.reserveA pool.reserveB pool.fee)
          hA hB hf0 hf1 ha0 ho1 ho1nn
        rw [PoolManager.getAmountOut_def
          ((PoolManager.getAmountOut (a : ℚ) pool.reserveA pool.reserveB pool.fee : ℤ) : ℚ)]
        exact ⟨hkey.1, fun hfpos hapos =>
          hkey.2 (hflt hfpos) (by exact_mod_cast hapos)⟩
    | false =>
      simp only [PoolManager.concentratedOrCpOut, of_decide_eq_false hty, if_false]
      have ho1nn : 0 ≤ PoolManager.getAmountOut (a : ℚ) pool.reserveA pool.reserveB pool.fee := by
        rw [PoolManager.getAmountOut_def]
        refine Int.floor_nonneg.mpr ?_
        have : 0 ≤ (a : ℚ) * f := mul_nonneg ha0 hf0
        positivity
      have ho1 : ((PoolManager.getAmountOut (a : ℚ) pool.reserveA pool.reserveB pool.fee : ℤ) : ℚ)
          ≤ (a : ℚ) * f * pool.reserveB / (pool.reserveA + (a : ℚ) * f) := by
        rw [PoolManager.getAmountOut_def]
        exact Int.floor_le _
      have hkey := cp_roundtrip pool.reserveA pool.reserveB f (a : ℚ)
        (PoolManager.getAmountOut (a : ℚ) pool.reserveA pool.reserveB pool.fee)
        hA hB hf0 hf1 ha0 ho1 ho1nn
      rw [PoolManager.getAmountOut_def
        ((PoolManager.getAmountOut (a : ℚ) pool.reserveA pool.reserveB pool.fee : ℤ) : ℚ)]
      exact ⟨hkey.1, fun hfpos hapos =>
        hkey.2 (hflt hfpos) (by exact_mod_cast hapos)⟩

/-- Witness for C4: a concrete constant-product round trip of 100 000 000
base units on `cpPool` (25 bps fee) comes back strictly smaller. -/
theorem c4_roundtrip_no_gain_witness :
    (PoolManager.getQuote cpPool
        (PoolManager.getQuote cpPool cpPool.tokenA ((100000000 : ℕ) : ℚ)).outputMint
        (PoolManager.getQuote cpPool cpPool.tokenA ((100000000 : ℕ) : ℚ)).outputAmount).outputAmount
      < ((100000000 : ℕ) : ℚ) :=
  (c4_roundtrip_no_gain cpPool 100000000 (by decide) (by norm_num [cpPool])
    (by norm_num [cpPool]) (by norm_num [cpPool]) (by norm_num [cpPool])
    (by intro s h; simp [cpPool] at h)).2 (by norm_num [cpPool]) (by decide)

/-- Counterexample to C4 as stated: with fee 25 bps > 0 but input amount 0,
the A→B→A round trip on `cpPool` returns exactly 0 = input, so the claimed
strict loss for every input fails at input 0. -/
theorem c4_counterexample :
    (0 : ℚ) < cpPool.fee
    ∧ (PoolManager.getQuote cpPool
        (PoolManager.getQuote cpPool cpPool.tokenA 0).outputMint
        (PoolManager.getQuote cpPool cpPool.tokenA 0).outputAmount).outputAmount = 0
    ∧ ¬ ((PoolManager.getQuote cpPool
        (PoolManager.getQuote cpPool cpPool.tokenA 0).outputMint
        (PoolManager.getQuote cpPool cpPool.tokenA 0).outputAmount).outputAmount < 0) := by
  have h0 : (PoolManager.getQuote cpPool cpPool.tokenA 0).outputAmount = 0 := by
    rw [PoolManager.getQuote_outputAmount]
    norm_num [cpPool, PoolManager.quoteOutput, PoolManager.concentratedOrCpOut,
      PoolManager.getAmountOut]
  have hmint : (PoolManager.getQuote cpPool cpPool.tokenA 0).outputMint = 20 := by
    rw [PoolManager.getQuote_outputMint]
    norm_num [cpPool]
  rw [h0, hmint]
  have h2 : (PoolManager.getQuote cpPool 20 0).outputAmount = 0 := by
    rw [PoolManager.getQuote_outputAmount]
    norm_num [cpPool, PoolManager.quoteOutput, PoolManager.concentratedOrCpOut,
      PoolManager.getAmountOut]
  rw [h2]
  norm_num [cpPool]

/-! ## C5 -/

/-- Counterexample to C5: on the sell side the code does not apply the fee
to the input before the virtual-reserve formula.  For virtual reserves
1000/1000 and 100 tokens in, the code yields 90 while the spec formula
(fee on input, then the constant product) yields 91. -/
theorem c5_counterexample :
    getSellQuote sellCurveExample 100 = 90
      ∧ specBondingCurveOut sellCurveExample.virtualTokenReserves
          sellCurveExample.virtualSolReserves 100 = 91
      ∧ getSellQuote sellCurveExample 100
          ≠ specBondingCurveOut sellCurveExample.virtualTokenReserves
              sellCurveExample.virtualSolReserves 100 := by
  decide

/-- C5 (amended): the buy quote applies the 1% fee to the SOL input before
the virtual-reserve constant-product formula and equals
`virtualOut − (virtualIn·virtualOut)/(virtualIn+effIn)`; the sell quote
feeds the raw token input into the formula and applies the 1% fee to the
SOL output instead:
`out = (virtualSol − (virtualTok·virtualSol)/(virtualTok+tokensIn))·99/100`. -/
theorem c5_bonding_curve_fee_sides :
    ∀ (curve : BondingCurveData) (solIn tokensIn : ℕ),
      getBuyQuote curve solIn
          = specBondingCurveOut curve.virtualSolReserves curve.virtualTokenReserves solIn
        ∧ getSellQuote curve tokensIn
            = (curve.virtualSolReserves
                - curve.virtualTokenReserves * curve.virtualSolReserves
                    / (curve.virtualTokenReserves + tokensIn)) * 99 / 100 := by
  intro curve solIn tokensIn
  constructor
  · simp only [getBuyQuote, specBondingCurveOut, Nat.mul_comm]
  · rfl

/-! ## Executor helper lemmas -/

/-- Whenever the dedup guard passes, `execute` stamps `lastExecution` with
the opportunity key and the current time, in every branch. -/
theorem Executor.execute_lastExecution (st : Executor.State) (dry : Bool)
    (opp : ArbOpportunity) (now : ℕ) (arb : Except Unit (List Executor.LegAction × Bool))
    (h : Executor.suppressed st (Executor.dedupKey opp) now = false) :
    ((Executor.execute st dry opp now arb).1).lastExecution
      = some (Executor.dedupKey opp, now) := by
  cases dry with
  | true => simp [Executor.execute, h]
  | false =>
    rcases arb with e | ⟨acts, ok⟩
    · simp [Executor.execute, h]
    · cases ok <;> simp [Executor.execute, h]

/-- A state whose `lastExecution` carries the same key within the 30 s
window suppresses the call. -/
theorem Executor.suppressed_same_key (key : ℕ × ℕ × OppType) (t1 t2 : ℕ)
    (st : Executor.State) (hlast : st.lastExecution = some (key, t1))
    (h : t2 - t1 < 30000) :
    Executor.suppressed st key t2 = true := by
  unfold Executor.suppressed
  rw [hlast]
  simp [h]

/-- `executeArb` attempts leg 1 alone, both legs, or both legs plus a single
fallback — no other action sequence is reachable. -/
theorem Executor.executeArb_actions (opp : ArbOpportunity) (env : Executor.ArbEnv) :
    (Executor.executeArb opp env).1 = [Executor.LegAction.leg1]
    ∨ (Executor.executeArb opp env).1 = [Executor.LegAction.leg1, Executor.LegAction.leg2]
    ∨ (Executor.executeArb opp env).1
        = [Executor.LegAction.leg1, Executor.LegAction.leg2, Executor.LegAction.fallback] := by
  rcases env with ⟨l1, b1, l2, b2, fb⟩
  rcases l1 with _ | s1
  · left; rfl
  · by_cases hb : b1 = 0
    · left; simp [Executor.executeArb, hb]
    · rcases l2 with _ | s2
      · by_cases hc : 0 < b2 ∧ opp.sellPool ≠ opp.buyPool
        · right; right; simp [Executor.executeArb, hb, hc]
        · right; left; simp [Executor.executeArb, hb, hc]
      · right; left; simp [Executor.executeArb, hb]

/-! ## C7 -/

/-- C7: from a fresh executor, the first submission of an opportunity passes
the dedup guard, and a second identical submission within the 30 s cooldown
is suppressed: it returns false, attempts no leg, and leaves the state
unchanged — exactly one execution for the pair. -/
theorem c7_dedup_single_execution :
    ∀ (opp : ArbOpportunity) (dry : Bool) (t1 t2 : ℕ)
      (arb1 arb2 : Except Unit (List Executor.LegAction × Bool)),
      t2 - t1 < 30000 →
      Executor.suppressed Executor.initialState (Executor.dedupKey opp) t1 = false
      ∧ Executor.execute (Executor.execute Executor.initialState dry opp t1 arb1).1
          dry opp t2 arb2
        = ((Executor.execute Executor.initialState dry opp t1 arb1).1, false, []) := by
  intro opp dry t1 t2 arb1 arb2 ht
  have h1 : Executor.suppressed Executor.initialState (Executor.dedupKey opp) t1 = false := rfl
  refine ⟨h1, ?_⟩
  have hlast := Executor.execute_lastExecution Executor.initialState dry opp t1 arb1 h1
  have hsup := Executor.suppressed_same_key (Executor.dedupKey opp) t1 t2 _ hlast ht
  set st1 := (Executor.execute Executor.initialState dry opp t1 arb1).1 with hst1
  simp [Executor.execute, hsup]

/-- Witness for C7: a concrete duplicate submission 100 ms after the first
is suppressed with no state change. -/
theorem c7_dedup_single_execution_witness :
    Executor.suppressed Executor.initialState (Executor.dedupKey sampleOpp) 0 = false
    ∧ Executor.execute
        (Executor.execute Executor.initialState false sampleOpp 0
          (Except.ok ([Executor.LegAction.leg1, Executor.LegAction.leg2], true))).1
        false sampleOpp 100
        (Except.ok ([Executor.LegAction.leg1, Executor.LegAction.leg2], true))
      = ((Executor.execute Executor.initialState false sampleOpp 0
          (Except.ok ([Executor.LegAction.leg1, Executor.LegAction.leg2], true))).1,
          false, []) :=
  c7_dedup_single_execution sampleOpp false 0 100
    (Except.ok ([Executor.LegAction.leg1, Executor.LegAction.leg2], true))
    (Except.ok ([Executor.LegAction.leg1, Executor.LegAction.leg2], true))
    (by decide)

/-! ## C8 -/

/-- Counterexample to C8 as stated: leg 1 lands, leg 2 fails, tokens remain,
the fallback re-sell succeeds (its signature is returned), and yet
`executeArb` reports failure — a successful fallback does not end in a
successful `Done`. -/
theorem c8_counterexample :
    Executor.executeArb sampleOpp envFallbackOk
      = ([Executor.LegAction.leg1, Executor.LegAction.leg2, Executor.LegAction.fallback],
          false)
    ∧ envFallbackOk.fallbackSig = some 22 := by
  refine ⟨?_, rfl⟩
  have hne : sampleOpp.sellPool ≠ sampleOpp.buyPool := by decide
  simp [Executor.executeArb, envFallbackOk, hne]

/-- C8 (amended): the two-leg machine aborts after a leg-1 failure with no
second transaction; a leg-2 success ends with both legs and result true; a
leg-2 failure with tokens remaining and a distinct buy venue triggers
exactly one fallback re-sell and reports failure regardless of the
fallback's own outcome; and no leg is ever attempted twice. -/
theorem c8_two_leg_state_machine :
    ∀ (opp : ArbOpportunity) (env : Executor.ArbEnv),
      (env.leg1Sig = none →
        Executor.executeArb opp env = ([Executor.LegAction.leg1], false))
      ∧ (env.leg1Sig ≠ none → env.balanceAfterLeg1 ≠ 0 → env.leg2Sig ≠ none →
          Executor.executeArb opp env
            = ([Executor.LegAction.leg1, Executor.LegAction.leg2], true))
      ∧ (env.leg1Sig ≠ none → env.balanceAfterLeg1 ≠ 0 → env.leg2Sig = none →
          0 < env.balanceAfterLeg2 → opp.sellPool ≠ opp.buyPool →
          Executor.executeArb opp env
            = ([Executor.LegAction.leg1, Executor.LegAction.leg2,
                Executor.LegAction.fallback], false))
      ∧ ((Executor.executeArb opp env).1.count Executor.LegAction.fallback ≤ 1)
      ∧ ((Executor.executeArb opp env).1.count Executor.LegAction.leg2 ≤ 1)
      ∧ ((Executor.executeArb opp env).1.count Executor.LegAction.leg1 = 1) := by
  intro opp env
  refine ⟨?_, ?_, ?_, ?_, ?_, ?_⟩
  · intro h1
    rcases env with ⟨l1, b1, l2, b2, fb⟩
    cases h1
    rfl
  · intro h1 h2 h3
    rcases env with ⟨l1, b1, l2, b2, fb⟩
    rcases l1 with _ | s1
    · exact absurd rfl h1
    · rcases l2 with _ | s2
      · exact absurd rfl h3
      · simp [Executor.executeArb, h2]
  · intro h1 h2 h3 h4 h5
    rcases env with ⟨l1, b1, l2, b2, fb⟩
    rcases l1 with _ | s1
    · exact absurd rfl h1
    · cases h3
      simp [Executor.executeArb, h2, h4, h5]
  · rcases Executor.executeArb_actions opp env with h | h | h <;> rw [h] <;> decide
  · rcases Executor.executeArb_actions opp env with h | h | h <;> rw [h] <;> decide
  · rcases Executor.executeArb_actions opp env with h | h | h <;> rw [h] <;> decide

/-- Witness for C8: with leg 1 failing, the machine aborts at once — only
leg 1 was attempted and the result is failure. -/
theorem c8_two_leg_state_machine_witness :
    Executor.executeArb sampleOpp envLeg1Fail = ([Executor.LegAction.leg1], false) :=
  (c8_two_leg_state_machine sampleOpp envLeg1Fail).1 rfl

/-! ## C9 -/

/-- C9: for the Raydium and Orca builders, a simulation error means no
signing and no submission and a null result, with the simulation not
retried; signing happens only after a clean simulation (the event list
shows build, simulate, sign in order); and a confirmation error after
submission makes the leg fail. -/
theorem c9_simulate_before_sign :
    ∀ env : Executor.SwapEnv,
      (env.simError ≠ none →
        (Executor.swapViaRaydiumRaw env).2 = none
        ∧ Executor.TxEvent.signed ∉ (Executor.swapViaRaydiumRaw env).1
        ∧ Executor.TxEvent.submitted ∉ (Executor.swapViaRaydiumRaw env).1
        ∧ (Executor.swapViaOrca env).2 = none
        ∧ Executor.TxEvent.signed ∉ (Executor.swapViaOrca env).1
        ∧ Executor.TxEvent.submitted ∉ (Executor.swapViaOrca env).1)
      ∧ (Executor.TxEvent.signed ∈ (Executor.swapViaRaydiumRaw env).1 →
          env.simError = none
          ∧ (Executor.swapViaRaydiumRaw env).1
              = [Executor.TxEvent.built, Executor.TxEvent.simulated,
                  Executor.TxEvent.signed] ++ (Executor.sendAndConfirm env).1)
      ∧ (Executor.TxEvent.signed ∈ (Executor.swapViaOrca env).1 →
          env.simError = none
          ∧ (Executor.swapViaOrca env).1
              = [Executor.TxEvent.built, Executor.TxEvent.simulated,
                  Executor.TxEvent.signed] ++ (Executor.sendAndConfirm env).1)
      ∧ ((Executor.swapViaRaydiumRaw env).1.count Executor.TxEvent.simulated ≤ 1)
      ∧ ((Executor.swapViaOrca env).1.count Executor.TxEvent.simulated ≤ 1)
      ∧ (env.confirmError ≠ none →
          (Executor.swapViaRaydiumRaw env).2 = none
          ∧ (Executor.swapViaOrca env).2 = none) := by
  intro env
  rcases env with ⟨pa, ma, ta, se, ce, sig⟩
  cases pa <;> cases ma <;> cases ta <;> rcases se with _ | e1 <;> rcases ce with _ | e2 <;>
    simp [Executor.swapViaRaydiumRaw, Executor.swapViaOrca, Executor.sendAndConfirm,
      List.count_cons]

/-- Witness for C9: a failing simulation on a fully resolvable pool leaves
both venue legs unsigned, unsubmitted and failed, and a failing
confirmation after a clean simulation also fails both legs. -/
theorem c9_simulate_before_sign_witness :
    ((Executor.swapViaRaydiumRaw envSimFail).2 = none
      ∧ Executor.TxEvent.signed ∉ (Executor.swapViaRaydiumRaw envSimFail).1
      ∧ Executor.TxEvent.submitted ∉ (Executor.swapViaRaydiumRaw envSimFail).1
      ∧ (Executor.swapViaOrca envSimFail).2 = none
      ∧ Executor.TxEvent.signed ∉ (Executor.swapViaOrca envSimFail).1
      ∧ Executor.TxEvent.submitted ∉ (Executor.swapViaOrca envSimFail).1)
    ∧ ((Executor.swapViaRaydiumRaw envConfFail).2 = none
      ∧ (Executor.swapViaOrca envConfFail).2 = none) :=
  ⟨(c9_simulate_before_sign envSimFail).1 (by simp [envSimFail]),
    (c9_simulate_before_sign envConfFail).2.2.2.2.2 (by simp [envConfFail])⟩

/-! ## C10 -/

/-- C10: `execute` always resolves to a boolean: a thrown `executeArb` in
live mode is caught and reported as false, and a dedup-suppressed call
returns false (with no legs attempted and no state change) rather than an
error. -/
theorem c10_execute_never_throws :
    ∀ (st : Executor.State) (dry : Bool) (opp : ArbOpportunity) (now : ℕ)
      (arb : Except Unit (List Executor.LegAction × Bool)) (e : Unit),
      (Executor.suppressed st (Executor.dedupKey opp) now = true →
        Executor.execute st dry opp now arb = (st, false, []))
      ∧ (Executor.suppressed st (Executor.dedupKey opp) now = false →
        (Executor.execute st false opp now (Except.error e)).2.1 = false) := by
  intro st dry opp now arb e
  constructor
  · intro h
    simp [Executor.execute, h]
  · intro h
    simp [Executor.execute, h]

/-- Witness for C10: a duplicate submission yields false with no error, and
a thrown live execution is caught and reported as false. -/
theorem c10_execute_never_throws_witness :
    Executor.execute dupState false sampleOpp 100
        (Except.ok ([Executor.LegAction.leg1], true))
      = (dupState, false, [])
    ∧ (Executor.execute Executor.initialState false sampleOpp 100
        (Except.error ())).2.1 = false :=
  ⟨(c10_execute_never_throws dupState false sampleOpp 100
      (Except.ok ([Executor.LegAction.leg1], true)) ()).1 (by decide),
    (c10_execute_never_throws Executor.initialState false sampleOpp 100
      (Except.error ()) ()).2 rfl⟩
